import Mathlib

/-!
# Verification of the spi-exata access-control decision engine

Shallow embedding of the two-tier authorization subsystem:

* `memoryCache` — the in-memory Casbin engine (`aclcache/cache.go`,
  model string `casbinModel`, operations `add`, `clearInstanceRules`,
  `check`, `loadRoles`, `setUserRole`, `resolveObject`).
* `DB` — the persistent rule store (`aclbus/stores/acldb/acldb.go`):
  the `acl` table, the users/role join and the `role_policy` table,
  with the semantics of the two check queries.
* `aclcache.*Step` — the Write-Through Cache Coordinator
  (`aclcache/aclcache.go`, type `Store`): each method body is embedded
  as a function of the underlying storer call's outcome, mirroring the
  Go control flow `if err := s.storer.X(...); err != nil { return err }`.
* `CachedStore` — the coordinator composed with the database-backed
  storer plus a call counter (the spec's "call-count probe").

Strings that enter the Casbin engine are images of four pairwise
disjoint injections: `uuid.String()` (36-char dashed hex),
`resource.String()` (DASHBOARD, SUBJECT, PAGE, User),
`action.String()` (CREATE, DELETE, UPDATE, GET), and
`"ROLE:" + strings.ToUpper(role.String())` (ROLE:-prefixed names).
The coproduct `EStr` models this string domain; constructor
disjointness reflects the fact that these image sets do not intersect
(no enum name is a dashed-hex UUID rendering, no resource name equals
an action name, and only the role renderings carry the ROLE: prefix).
-/

namespace SpiExata

/-- `uuid.UUID` (github.com/google/uuid). Only equality, the nil value
and the injective `String()` rendering matter to this subsystem. -/
structure Uuid where
  val : Nat
deriving DecidableEq, Repr

/-- `uuid.Nil`, the zero UUID used as the "no instance" sentinel. -/
def Uuid.nil : Uuid := ⟨0⟩

/-- `actions.Action` (business/types/actions): closed enumeration
CREATE, DELETE, UPDATE, GET. -/
inductive Action where
  | create
  | delete
  | update
  | get
deriving DecidableEq, Repr

/-- `resource.Resource` (business/types, `package resource`, bundled
in the phone.go source document after the separator): closed
enumeration DASHBOARD, SUBJECT, PAGE, User (the last one not
uppercase in the source), built exactly like `actions.Action` and
`role.Role`, with an injective `String()`. -/
inductive Resource where
  | dashboard
  | subject
  | page
  | user
deriving DecidableEq, Repr

/-- `role.Role` (business/types/role): ANALYST, ADMIN, USER. -/
inductive Role where
  | analyst
  | admin
  | user
deriving DecidableEq, Repr

/-- The string domain of the Casbin engine: every string handed to the
enforcer is the image of exactly one of these injections.
`uuidS u` = `u.String()`; `resS r` = `r.String()`; `actS a` =
`a.String()`; `roleS r` = `"ROLE:" + strings.ToUpper(r.String())`
(role names are already uppercase, so `ToUpper` is the identity). -/
inductive EStr where
  | uuidS (u : Uuid)
  | resS (r : Resource)
  | actS (a : Action)
  | roleS (r : Role)
deriving DecidableEq, Repr

/-- The Casbin enforcer's in-memory state for the model `casbinModel`:
`p`-policies (sub, obj, act) and `g`-grouping facts (sub, role). -/
structure Engine where
  policies : List (EStr × EStr × EStr)
  gfacts : List (EStr × EStr)
deriving DecidableEq, Repr

/-- The freshly constructed enforcer (`casbin.NewEnforcer(m)` with no
adapter): empty policy and grouping stores. -/
def Engine.empty : Engine := ⟨[], []⟩

/-- `enforcer.AddPolicy(sub, obj, act)`: inserts the rule unless it is
already present (duplicates are not errors, merely not added). -/
def Engine.addPolicy (e : Engine) (sub obj act : EStr) : Engine :=
  if (sub, obj, act) ∈ e.policies then e
  else { e with policies := e.policies ++ [(sub, obj, act)] }

/-- `enforcer.AddGroupingPolicy(sub, role)`: inserts the grouping fact
unless already present. -/
def Engine.addGroupingPolicy (e : Engine) (sub rl : EStr) : Engine :=
  if (sub, rl) ∈ e.gfacts then e
  else { e with gfacts := e.gfacts ++ [(sub, rl)] }

/-- Casbin's default role manager `HasLink(a, b)` with the default
`maxHierarchyLevel = 10`: true iff `a = b` or a chain of at most the
given number of grouping links leads from `a` to `b`. -/
def Engine.gLink (e : Engine) : Nat → EStr → EStr → Bool
  | 0, a, b => a == b
  | n + 1, a, b =>
      a == b || e.gfacts.any (fun gf => gf.1 == a && e.gLink n gf.2 b)

/-- `enforcer.Enforce(sub, obj, act)` for the fixed model string
`casbinModel`:
`m = g(r.sub, "ROLE:ADMIN") || (g(r.sub, p.sub) && r.obj == p.obj && r.act == p.act)`
with effect `some(where (p.eft == allow))`. -/
def Engine.enforce (e : Engine) (sub obj act : EStr) : Bool :=
  e.gLink 10 sub (EStr.roleS Role.admin) ||
    e.policies.any (fun p => e.gLink 10 sub p.1 && obj == p.2.1 && act == p.2.2)

namespace memoryCache

/-- `memoryCache.resolveObject`: a non-nil instance ID renders as the
UUID string, otherwise the resource-type name is used. -/
def resolveObject (res : Resource) (id : Uuid) : EStr :=
  if id ≠ Uuid.nil then EStr.uuidS id else EStr.resS res

/-- `memoryCache.add`: inserts the policy
`(userID.String(), resolveObject(res, resID), act.String())`.
Enforcer failures are logged and swallowed (cannot occur for this
fixed model), so the operation is total. -/
def add (e : Engine) (userID : Uuid) (res : Resource) (resID : Uuid)
    (act : Action) : Engine :=
  e.addPolicy (EStr.uuidS userID) (resolveObject res resID) (EStr.actS act)

/-- `memoryCache.clearInstanceRules`: no-op when `resID == uuid.Nil`;
otherwise `RemoveFilteredPolicy(0, sub, obj)` removes every policy
whose subject is the user and whose object is the instance ID. -/
def clearInstanceRules (e : Engine) (userID : Uuid) (resID : Uuid) : Engine :=
  if resID = Uuid.nil then e
  else
    { e with
      policies := e.policies.filter
        (fun p => !(p.1 == EStr.uuidS userID && p.2.1 == EStr.uuidS resID)) }

/-- `memoryCache.clearResourceRules`: `RemoveFilteredPolicy(0, sub,
res.String())` removes every policy for the user on the type-scope
object. -/
def clearResourceRules (e : Engine) (userID : Uuid) (res : Resource) : Engine :=
  { e with
    policies := e.policies.filter
      (fun p => !(p.1 == EStr.uuidS userID && p.2.1 == EStr.resS res)) }

/-- `memoryCache.check`: when a non-nil instance ID is supplied, the
instance-scope enforce runs first and success returns immediately;
otherwise (or on its failure) the type-scope enforce decides.  The Go
function returns `nil` on success and an error on denial; we return
the success Boolean (the enforcer's error path is unreachable for the
fixed model). -/
def check (e : Engine) (userID : Uuid) (res : Resource) (resID : Uuid)
    (act : Action) : Bool :=
  if resID ≠ Uuid.nil ∧
      e.enforce (EStr.uuidS userID) (EStr.uuidS resID) (EStr.actS act) then
    true
  else
    e.enforce (EStr.uuidS userID) (EStr.resS res) (EStr.actS act)

/-- `memoryCache.setUserRole`: `RemoveFilteredGroupingPolicy(0, sub)`
removes every grouping fact for the subject, then
`AddGroupingPolicy(sub, "ROLE:" + upper(role))` installs the new one. -/
def setUserRole (e : Engine) (userID : Uuid) (r : Role) : Engine :=
  Engine.addGroupingPolicy
    { e with gfacts := e.gfacts.filter (fun gf => !(gf.1 == EStr.uuidS userID)) }
    (EStr.uuidS userID) (EStr.roleS r)

/-- `memoryCache.loadRoles`: `setUserRole` for every entry of the
user-roles snapshot (Go map iteration embedded as a list fold). -/
def loadRoles (e : Engine) (userRoles : List (Uuid × Role)) : Engine :=
  userRoles.foldl (fun acc ur => setUserRole acc ur.1 ur.2) e

end memoryCache

/-- The error outcomes of a storer call (`aclbus` errors plus opaque
infrastructure failures): `aclbus.ErrAccessDenied`, `aclbus.ErrUnique`,
and wrapped connectivity/query errors (`infra`, opaque payload). -/
inductive Err where
  | accessDenied
  | unique
  | infra (code : Nat)
deriving DecidableEq, Repr

/-- `aclbus.ACL`: a persisted access control rule (one row of the
`acl` table joined with its resource-type name). -/
structure ACL where
  UserID : Uuid
  ResourceID : Uuid
  Resource : Resource
  Actions : List Action
deriving DecidableEq, Repr

/-- `aclbus.NewACL`. -/
structure NewACL where
  ResourceID : Uuid
  Resource : Resource
  Actions : List Action
deriving DecidableEq, Repr

/-- `aclbus.ACLUpdate`. -/
structure ACLUpdate where
  ResourceID : Uuid
  Resource : Resource
  Actions : List Action
deriving DecidableEq, Repr

/-- `aclbus.AccessCheck`: instance-scope permission request. -/
structure AccessCheck where
  UserID : Uuid
  ResourceID : Uuid
  Resource : Resource
  Action : Action
deriving DecidableEq, Repr

/-- `aclbus.ResourceCheck`: type-scope permission request. -/
structure ResourceCheck where
  UserID : Uuid
  Resource : Resource
  Action : Action
deriving DecidableEq, Repr

/-- The relational state read by `acldb.Store`: the `acl` table, the
users/role join (one role per user), and the `role_policy` table. -/
structure DB where
  acls : List ACL
  userRoles : List (Uuid × Role)
  rolePolicies : List (Role × Resource × List Action)
deriving DecidableEq, Repr

/-- `acldb.Store.ValidateAccess`: `count(1)` over `acl` rows with
matching user, resource instance and resource type whose action array
contains the requested action; zero rows yields
`aclbus.ErrAccessDenied`. -/
def DB.validateAccess (db : DB) (check : AccessCheck) : Option Err :=
  if db.acls.any (fun a =>
      a.UserID == check.UserID && a.ResourceID == check.ResourceID &&
      a.Resource == check.Resource && a.Actions.contains check.Action) then
    none
  else
    some Err.accessDenied

/-- `acldb.Store.ValidateAccessToResource`: the users/role join with a
left join on `role_policy`; a row counts when the user's role is ADMIN
(bypass) or the role policy for the resource type contains the action. -/
def DB.validateAccessToResource (db : DB) (check : ResourceCheck) : Option Err :=
  if db.userRoles.any (fun ur =>
      ur.1 == check.UserID &&
      (ur.2 == Role.admin ||
        db.rolePolicies.any (fun rp =>
          rp.1 == ur.2 && rp.2.1 == check.Resource &&
          rp.2.2.contains check.Action))) then
    none
  else
    some Err.accessDenied

namespace aclcache

/-- `aclcache.Store.Create` body, parametric in the outcome of the
`s.storer.Create` call: a storer error aborts and propagates; on
success one engine fact is added per granted action. -/
def createStep (e : Engine) (userID : Uuid) (nw : NewACL)
    (storeRes : Option Err) : Engine × Option Err :=
  match storeRes with
  | some err => (e, some err)
  | none =>
      (nw.Actions.foldl
        (fun acc act => memoryCache.add acc userID nw.Resource nw.ResourceID act)
        e, none)

/-- `aclcache.Store.Update` body, parametric in the outcome of the
`s.storer.Update` call: on success, clear the instance rules for
`(userID, p.ResourceID)` and then add one fact per new action. -/
def updateStep (e : Engine) (userID : Uuid) (p : ACLUpdate)
    (storeRes : Option Err) : Engine × Option Err :=
  match storeRes with
  | some err => (e, some err)
  | none =>
      (p.Actions.foldl
        (fun acc act => memoryCache.add acc userID p.Resource p.ResourceID act)
        (memoryCache.clearInstanceRules e userID p.ResourceID), none)

/-- `aclcache.Store.Delete` body, parametric in the outcome of the
`s.storer.Delete` call: on success, clear the instance rules. -/
def deleteStep (e : Engine) (userID : Uuid) (resourceID : Uuid)
    (storeRes : Option Err) : Engine × Option Err :=
  match storeRes with
  | some err => (e, some err)
  | none => (memoryCache.clearInstanceRules e userID resourceID, none)

/-- `aclcache.Store.SyncUserRole` body, parametric in the outcome of
the `s.storer.SyncUserRole` call: on success, `setUserRole` in the
engine. -/
def syncUserRoleStep (e : Engine) (userID : Uuid) (r : Role)
    (storeRes : Option Err) : Engine × Option Err :=
  match storeRes with
  | some err => (e, some err)
  | none => (memoryCache.setUserRole e userID r, none)

/-- `aclcache.Store.ValidateAccess` body, parametric in the outcome of
the `s.storer.ValidateAccess` call (only consulted on an engine miss):
engine hit returns success with no store interaction; a store error
propagates unchanged; store success triggers self-repair. -/
def validateAccessStep (e : Engine) (check : AccessCheck)
    (storeRes : Option Err) : Engine × Option Err :=
  if memoryCache.check e check.UserID check.Resource check.ResourceID check.Action then
    (e, none)
  else
    match storeRes with
    | some err => (e, some err)
    | none =>
        (memoryCache.add e check.UserID check.Resource check.ResourceID check.Action,
          none)

/-- `aclcache.Store.ValidateAccessToResource` body, parametric in the
outcome of the `s.storer.ValidateAccessToResource` call; the engine is
keyed with `uuid.Nil` in the object slot. -/
def validateAccessToResourceStep (e : Engine) (check : ResourceCheck)
    (storeRes : Option Err) : Engine × Option Err :=
  if memoryCache.check e check.UserID check.Resource Uuid.nil check.Action then
    (e, none)
  else
    match storeRes with
    | some err => (e, some err)
    | none =>
        (memoryCache.add e check.UserID check.Resource Uuid.nil check.Action, none)

/-- `aclcache.NewStore` / `Store.syncCache`, parametric in the two
snapshot reads: fetch all user roles (failure aborts construction),
load them, fetch all permissions (failure aborts construction), then
add one engine fact per action of every ACL rule. -/
def newStore (rolesRes : Except Err (List (Uuid × Role)))
    (permsRes : Except Err (List ACL)) : Except Err Engine :=
  match rolesRes with
  | .error err => .error err
  | .ok userRoles =>
      let e := memoryCache.loadRoles Engine.empty userRoles
      match permsRes with
      | .error err => .error err
      | .ok acls =>
          .ok (acls.foldl
            (fun acc rule =>
              rule.Actions.foldl
                (fun acc2 act =>
                  memoryCache.add acc2 rule.UserID rule.Resource rule.ResourceID act)
                acc)
            e)

end aclcache

/-- The cached store composed with the database-backed storer
(`acldb`) plus the spec's call-count probe: `calls` counts storer
invocations. -/
structure CachedStore where
  engine : Engine
  db : DB
  calls : Nat
deriving DecidableEq, Repr

/-- `aclcache.Store.ValidateAccess` running against the `acldb`
storer: an engine hit returns immediately; otherwise the store is
consulted (one storer call), a denial propagates with no repair, and
a store success self-repairs the engine before returning. -/
def CachedStore.validateAccess (s : CachedStore) (check : AccessCheck) :
    CachedStore × Option Err :=
  if memoryCache.check s.engine check.UserID check.Resource check.ResourceID
      check.Action then
    (s, none)
  else
    match s.db.validateAccess check with
    | some err => ({ s with calls := s.calls + 1 }, some err)
    | none =>
        ({ s with
            engine := memoryCache.add s.engine check.UserID check.Resource
              check.ResourceID check.Action,
            calls := s.calls + 1 }, none)

namespace auth

/-- `auth.Auth.performCheck`: a single enforcer query; success iff the
enforcer allows (the enforcer error path is unreachable for a fixed
model). -/
def performCheck (e : Engine) (sub obj act : EStr) : Bool :=
  e.enforce sub obj act

/-- `auth.Auth.Authorize` (the facade's two-stage "Double Guard"):
stage 1 checks the resource type; only if it passes and a resource ID
was supplied does stage 2 check the instance, and both must pass.
A supplied ID is modelled already parsed (`uuid.Parse` failures are a
distinct precondition error, out of scope here). -/
def authorize (e : Engine) (userID : Uuid) (res : Resource) (act : Action)
    (resourceID : Option Uuid) : Bool :=
  performCheck e (EStr.uuidS userID) (EStr.resS res) (EStr.actS act) &&
    match resourceID with
    | none => true
    | some rid => performCheck e (EStr.uuidS userID) (EStr.uuidS rid) (EStr.actS act)

end auth

/-! ## Well-formedness of engine states

Every string the repository hands to the enforcer as a policy subject
is a `uuid.String()`, and every grouping fact links a `uuid.String()`
to a `"ROLE:..."` name.  `Engine.WF` captures this shape; it holds for
every engine state reachable through the `memoryCache` operations. -/

/-- True iff the string is the rendering of a UUID. -/
def EStr.isUuidS : EStr → Bool
  | .uuidS _ => true
  | _ => false

/-- True iff the string is a `"ROLE:..."` grouping name. -/
def EStr.isRoleS : EStr → Bool
  | .roleS _ => true
  | _ => false

/-- Shape invariant of reachable engine states: policy subjects are
UUID strings; grouping facts link a UUID string to a role name. -/
def Engine.WF (e : Engine) : Bool :=
  e.policies.all (fun p => p.1.isUuidS) &&
    e.gfacts.all (fun gf => gf.1.isUuidS && gf.2.isRoleS)

theorem EStr.eq_uuidS_of_isUuidS {x : EStr} (h : x.isUuidS = true) :
    ∃ u : Uuid, x = EStr.uuidS u := by
  cases x with
  | uuidS u => exact ⟨u, rfl⟩
  | resS r => simp [EStr.isUuidS] at h
  | actS a => simp [EStr.isUuidS] at h
  | roleS r => simp [EStr.isUuidS] at h

theorem EStr.eq_roleS_of_isRoleS {x : EStr} (h : x.isRoleS = true) :
    ∃ r : Role, x = EStr.roleS r := by
  cases x with
  | uuidS u => simp [EStr.isRoleS] at h
  | resS r => simp [EStr.isRoleS] at h
  | actS a => simp [EStr.isRoleS] at h
  | roleS r => exact ⟨r, rfl⟩

theorem Engine.WF_policies {e : Engine} (hwf : e.WF = true) :
    ∀ p ∈ e.policies, ∃ u : Uuid, p.1 = EStr.uuidS u := by
  intro p hp
  have h := (Bool.and_eq_true _ _).mp hwf
  exact EStr.eq_uuidS_of_isUuidS (List.all_eq_true.mp h.1 p hp)

theorem Engine.WF_gfacts {e : Engine} (hwf : e.WF = true) :
    ∀ gf ∈ e.gfacts,
      (∃ u : Uuid, gf.1 = EStr.uuidS u) ∧ ∃ r : Role, gf.2 = EStr.roleS r := by
  intro gf hgf
  have h := (Bool.and_eq_true _ _).mp hwf
  have h2 := (Bool.and_eq_true _ _).mp (List.all_eq_true.mp h.2 gf hgf)
  exact ⟨EStr.eq_uuidS_of_isUuidS h2.1, EStr.eq_roleS_of_isRoleS h2.2⟩

/-! ## Role-link (`g`) characterization -/

theorem Engine.gLink_refl (e : Engine) : ∀ (n : Nat) (a : EStr),
    e.gLink n a a = true := by
  intro n a
  cases n with
  | zero => simp [Engine.gLink]
  | succ m => simp [Engine.gLink]

/-- Under `WF`, a `g` query resolves in at most one hop: identity or a
direct grouping fact (role names are never sources of further links). -/
theorem Engine.gLink_ten_iff {e : Engine} (hwf : e.WF = true) (a b : EStr) :
    e.gLink 10 a b = true ↔ a = b ∨ (a, b) ∈ e.gfacts := by
  constructor
  · intro h
    rcases (Bool.or_eq_true _ _).mp h with h1 | h2
    · exact Or.inl (by simpa using h1)
    · rcases List.any_eq_true.mp h2 with ⟨gf, hgf, hgfp⟩
      obtain ⟨x, y⟩ := gf
      rcases (Bool.and_eq_true _ _).mp hgfp with ⟨ha, hlink⟩
      have ha' : x = a := by simpa using ha
      rcases (Engine.WF_gfacts hwf _ hgf).2 with ⟨r, hr⟩
      have hr' : y = EStr.roleS r := hr
      have hstep : e.gLink 9 y b = true := hlink
      rw [hr'] at hstep
      rcases (Bool.or_eq_true _ _).mp hstep with h3 | h4
      · right
        have hy : y = b := by rw [hr']; simpa using h3
        rw [← ha', ← hy]
        exact hgf
      · exfalso
        rcases List.any_eq_true.mp h4 with ⟨gf', hgf', hgfp'⟩
        rcases (Bool.and_eq_true _ _).mp hgfp' with ⟨ha'', _⟩
        rcases (Engine.WF_gfacts hwf gf' hgf').1 with ⟨u', hu'⟩
        have hcon : gf'.1 = EStr.roleS r := by simpa using ha''
        rw [hu'] at hcon
        exact EStr.noConfusion hcon
  · intro h
    rcases h with h | h
    · subst h
      exact (Bool.or_eq_true _ _).mpr (Or.inl (by simp))
    · refine (Bool.or_eq_true _ _).mpr (Or.inr (List.any_eq_true.mpr ?_))
      refine ⟨(a, b), h, ?_⟩
      simp [Engine.gLink_refl]

/-! ## Enforce characterization -/

/-- An exact policy fact always satisfies `Enforce` (the matcher's
second disjunct with the identity `g` link). -/
theorem Engine.enforce_of_mem {e : Engine} {sub obj act : EStr}
    (h : (sub, obj, act) ∈ e.policies) : e.enforce sub obj act = true := by
  refine (Bool.or_eq_true _ _).mpr (Or.inr (List.any_eq_true.mpr ?_))
  refine ⟨(sub, obj, act), h, ?_⟩
  simp [Engine.gLink_refl]

/-- Matching semantics under `WF`, for a UUID subject: `Enforce`
succeeds iff the subject holds the `ROLE:ADMIN` grouping fact or the
exact policy fact is present. -/
theorem Engine.enforce_iff_of_WF {e : Engine} (hwf : e.WF = true)
    (u : Uuid) (obj act : EStr) :
    e.enforce (EStr.uuidS u) obj act = true ↔
      (EStr.uuidS u, EStr.roleS Role.admin) ∈ e.gfacts ∨
        (EStr.uuidS u, obj, act) ∈ e.policies := by
  constructor
  · intro h
    rcases (Bool.or_eq_true _ _).mp h with h1 | h2
    · rcases (Engine.gLink_ten_iff hwf _ _).mp h1 with heq | hmem
      · exact absurd heq (by simp)
      · exact Or.inl hmem
    · rcases List.any_eq_true.mp h2 with ⟨p, hp, hpp⟩
      obtain ⟨ps, po, pa⟩ := p
      rcases (Bool.and_eq_true _ _).mp hpp with ⟨h12, ha⟩
      rcases (Bool.and_eq_true _ _).mp h12 with ⟨hg, ho⟩
      rcases Engine.WF_policies hwf _ hp with ⟨v, hv⟩
      have hv' : ps = EStr.uuidS v := hv
      rw [hv'] at hg
      have hg' : e.gLink 10 (EStr.uuidS u) (EStr.uuidS v) = true := hg
      rcases (Engine.gLink_ten_iff hwf _ _).mp hg' with heq | hmem
      · have huv : u = v := by simpa using heq
        right
        have ho' : obj = po := by simpa using ho
        have ha' : act = pa := by simpa using ha
        rw [ho', ha', show EStr.uuidS u = ps from by rw [hv', huv]]
        exact hp
      · exfalso
        rcases (Engine.WF_gfacts hwf _ hmem).2 with ⟨r, hr⟩
        have hr' : EStr.uuidS v = EStr.roleS r := hr
        exact EStr.noConfusion hr'
  · intro h
    rcases h with h | h
    · exact (Bool.or_eq_true _ _).mpr
        (Or.inl ((Engine.gLink_ten_iff hwf _ _).mpr (Or.inr h)))
    · exact Engine.enforce_of_mem h

/-! ## Preservation of well-formedness

`WF` holds for the empty engine and is preserved by every
`memoryCache` operation, so it holds in every reachable engine
state. -/

theorem Engine.WF_empty : Engine.empty.WF = true := rfl

theorem Engine.addPolicy_WF {e : Engine} (h : e.WF = true) (u : Uuid)
    (obj act : EStr) : (e.addPolicy (EStr.uuidS u) obj act).WF = true := by
  unfold Engine.addPolicy
  split_ifs with hmem
  · exact h
  · unfold Engine.WF at h ⊢
    rcases (Bool.and_eq_true _ _).mp h with ⟨hp, hg⟩
    refine (Bool.and_eq_true _ _).mpr ⟨?_, hg⟩
    simp only [List.all_append, List.all_cons, List.all_nil]
    rw [hp]
    simp [EStr.isUuidS]

theorem memoryCache.add_WF {e : Engine} (h : e.WF = true) (u : Uuid)
    (res : Resource) (rid : Uuid) (act : Action) :
    (memoryCache.add e u res rid act).WF = true :=
  Engine.addPolicy_WF h u _ _

theorem memoryCache.clearInstanceRules_WF {e : Engine} (h : e.WF = true)
    (u rid : Uuid) : (memoryCache.clearInstanceRules e u rid).WF = true := by
  unfold memoryCache.clearInstanceRules
  split_ifs with hn
  · exact h
  · unfold Engine.WF at h ⊢
    rcases (Bool.and_eq_true _ _).mp h with ⟨hp, hg⟩
    refine (Bool.and_eq_true _ _).mpr ⟨?_, hg⟩
    refine List.all_eq_true.mpr ?_
    intro p hpmem
    exact List.all_eq_true.mp hp p (List.mem_of_mem_filter hpmem)

theorem Engine.mem_addPolicy (e : Engine) (s o a : EStr) (p : EStr × EStr × EStr) :
    p ∈ (e.addPolicy s o a).policies ↔ p ∈ e.policies ∨ p = (s, o, a) := by
  unfold Engine.addPolicy
  split_ifs with h
  · constructor
    · exact fun hp => Or.inl hp
    · rintro (hp | rfl)
      · exact hp
      · exact h
  · simp [List.mem_append]

theorem Engine.addPolicy_gfacts (e : Engine) (s o a : EStr) :
    (e.addPolicy s o a).gfacts = e.gfacts := by
  unfold Engine.addPolicy
  split_ifs <;> rfl

theorem memoryCache.mem_add (e : Engine) (u : Uuid) (res : Resource)
    (rid : Uuid) (act : Action) (p : EStr × EStr × EStr) :
    p ∈ (memoryCache.add e u res rid act).policies ↔
      p ∈ e.policies ∨
        p = (EStr.uuidS u, memoryCache.resolveObject res rid, EStr.actS act) :=
  Engine.mem_addPolicy e _ _ _ p

theorem memoryCache.add_gfacts (e : Engine) (u : Uuid) (res : Resource)
    (rid : Uuid) (act : Action) :
    (memoryCache.add e u res rid act).gfacts = e.gfacts :=
  Engine.addPolicy_gfacts e _ _ _

theorem memoryCache.mem_foldl_add (acts : List Action) (e : Engine) (u : Uuid)
    (res : Resource) (rid : Uuid) (p : EStr × EStr × EStr) :
    p ∈ (acts.foldl (fun acc a => memoryCache.add acc u res rid a) e).policies ↔
      p ∈ e.policies ∨ ∃ a ∈ acts,
        p = (EStr.uuidS u, memoryCache.resolveObject res rid, EStr.actS a) := by
  induction acts generalizing e with
  | nil => simp
  | cons hd tl ih =>
    simp only [List.foldl_cons, ih, memoryCache.mem_add, List.mem_cons]
    constructor
    · rintro ((hp | rfl) | ⟨a, haa, rfl⟩)
      · exact Or.inl hp
      · exact Or.inr ⟨hd, Or.inl rfl, rfl⟩
      · exact Or.inr ⟨a, Or.inr haa, rfl⟩
    · rintro (hp | ⟨a, (rfl | haa), rfl⟩)
      · exact Or.inl (Or.inl hp)
      · exact Or.inl (Or.inr rfl)
      · exact Or.inr ⟨a, haa, rfl⟩

theorem memoryCache.foldl_add_gfacts (acts : List Action) (e : Engine) (u : Uuid)
    (res : Resource) (rid : Uuid) :
    (acts.foldl (fun acc a => memoryCache.add acc u res rid a) e).gfacts =
      e.gfacts := by
  induction acts generalizing e with
  | nil => rfl
  | cons hd tl ih =>
    simp only [List.foldl_cons]
    rw [ih, memoryCache.add_gfacts]

theorem memoryCache.mem_warm (acls : List ACL) (e : Engine)
    (p : EStr × EStr × EStr) :
    p ∈ (acls.foldl
        (fun acc rule =>
          rule.Actions.foldl
            (fun acc2 act =>
              memoryCache.add acc2 rule.UserID rule.Resource rule.ResourceID act)
            acc)
        e).policies ↔
      p ∈ e.policies ∨ ∃ rule ∈ acls, ∃ a ∈ rule.Actions,
        p = (EStr.uuidS rule.UserID,
          memoryCache.resolveObject rule.Resource rule.ResourceID, EStr.actS a) := by
  induction acls generalizing e with
  | nil => simp
  | cons hd tl ih =>
    simp only [List.foldl_cons, ih, memoryCache.mem_foldl_add, List.mem_cons]
    constructor
    · rintro ((hp | ⟨a, ha, rfl⟩) | ⟨rule, hr, a, ha, rfl⟩)
      · exact Or.inl hp
      · exact Or.inr ⟨hd, Or.inl rfl, a, ha, rfl⟩
      · exact Or.inr ⟨rule, Or.inr hr, a, ha, rfl⟩
    · rintro (hp | ⟨rule, (rfl | hr), a, ha, rfl⟩)
      · exact Or.inl (Or.inl hp)
      · exact Or.inl (Or.inr ⟨a, ha, rfl⟩)
      · exact Or.inr ⟨rule, hr, a, ha, rfl⟩

/-! ## Check-path lemmas -/

/-- With a non-nil instance ID the cache check is the OR of the
instance-scope and the type-scope enforce, instance first. -/
theorem memoryCache.check_eq_or (e : Engine) (u : Uuid) (res : Resource)
    (rid : Uuid) (act : Action) (h : rid ≠ Uuid.nil) :
    memoryCache.check e u res rid act =
      (e.enforce (EStr.uuidS u) (EStr.uuidS rid) (EStr.actS act) ||
        e.enforce (EStr.uuidS u) (EStr.resS res) (EStr.actS act)) := by
  unfold memoryCache.check
  by_cases hi : e.enforce (EStr.uuidS u) (EStr.uuidS rid) (EStr.actS act) = true
  · rw [if_pos ⟨h, hi⟩, hi, Bool.true_or]
  · rw [if_neg (fun hc => hi hc.2)]
    have hi' : e.enforce (EStr.uuidS u) (EStr.uuidS rid) (EStr.actS act) = false :=
      by simpa using hi
    rw [hi', Bool.false_or]

/-- With the nil sentinel the check is the type-scope enforce alone. -/
theorem memoryCache.check_nil (e : Engine) (u : Uuid) (res : Resource)
    (act : Action) :
    memoryCache.check e u res Uuid.nil act =
      e.enforce (EStr.uuidS u) (EStr.resS res) (EStr.actS act) := by
  unfold memoryCache.check
  rw [if_neg (fun hc => hc.1 rfl)]

theorem memoryCache.resolveObject_nil (res : Resource) :
    memoryCache.resolveObject res Uuid.nil = EStr.resS res := by
  simp [memoryCache.resolveObject]

theorem memoryCache.resolveObject_ne (res : Resource) (rid : Uuid)
    (h : rid ≠ Uuid.nil) :
    memoryCache.resolveObject res rid = EStr.uuidS rid := by
  simp [memoryCache.resolveObject, h]

/-- The fact written by `memoryCache.add` for `(u, res, rid, act)`
makes a later `memoryCache.check` of the same request hit. -/
theorem memoryCache.check_of_mem_fact (e : Engine) (u : Uuid) (res : Resource)
    (rid : Uuid) (act : Action)
    (h : (EStr.uuidS u, memoryCache.resolveObject res rid, EStr.actS act) ∈
      e.policies) :
    memoryCache.check e u res rid act = true := by
  by_cases hn : rid = Uuid.nil
  · subst hn
    rw [memoryCache.check_nil]
    rw [memoryCache.resolveObject_nil] at h
    exact Engine.enforce_of_mem h
  · rw [memoryCache.check_eq_or e u res rid act hn]
    rw [memoryCache.resolveObject_ne res rid hn] at h
    rw [Engine.enforce_of_mem h, Bool.true_or]

/-! ## Clear and set-role lemmas -/

theorem memoryCache.clearInstanceRules_nil (e : Engine) (u : Uuid) :
    memoryCache.clearInstanceRules e u Uuid.nil = e := by
  simp [memoryCache.clearInstanceRules]

theorem memoryCache.mem_clearInstanceRules (e : Engine) (u : Uuid) (rid : Uuid)
    (h : rid ≠ Uuid.nil) (p : EStr × EStr × EStr) :
    p ∈ (memoryCache.clearInstanceRules e u rid).policies ↔
      p ∈ e.policies ∧ ¬(p.1 = EStr.uuidS u ∧ p.2.1 = EStr.uuidS rid) := by
  unfold memoryCache.clearInstanceRules
  rw [if_neg h]
  simp [List.mem_filter, not_and, Decidable.imp_iff_not_or]

theorem memoryCache.clearInstanceRules_gfacts (e : Engine) (u : Uuid)
    (rid : Uuid) :
    (memoryCache.clearInstanceRules e u rid).gfacts = e.gfacts := by
  unfold memoryCache.clearInstanceRules
  split_ifs <;> rfl

theorem memoryCache.setUserRole_policies (e : Engine) (u : Uuid) (r : Role) :
    (memoryCache.setUserRole e u r).policies = e.policies := by
  unfold memoryCache.setUserRole Engine.addGroupingPolicy
  split_ifs <;> rfl

theorem memoryCache.setUserRole_gfacts (e : Engine) (u : Uuid) (r : Role) :
    (memoryCache.setUserRole e u r).gfacts =
      e.gfacts.filter (fun gf => !(gf.1 == EStr.uuidS u)) ++
        [(EStr.uuidS u, EStr.roleS r)] := by
  unfold memoryCache.setUserRole Engine.addGroupingPolicy
  rw [if_neg (by simp [List.mem_filter])]

/-- After `setUserRole`, the grouping facts for the subject are
exactly the single new one. -/
theorem memoryCache.setUserRole_filter_self (e : Engine) (u : Uuid) (r : Role) :
    (memoryCache.setUserRole e u r).gfacts.filter
        (fun gf => gf.1 == EStr.uuidS u) =
      [(EStr.uuidS u, EStr.roleS r)] := by
  rw [memoryCache.setUserRole_gfacts, List.filter_append]
  have h1 : (e.gfacts.filter (fun gf => !(gf.1 == EStr.uuidS u))).filter
      (fun gf => gf.1 == EStr.uuidS u) = [] := by
    rw [List.filter_filter]
    simp
  rw [h1]
  simp

theorem memoryCache.setUserRole_WF {e : Engine} (h : e.WF = true) (u : Uuid)
    (r : Role) : (memoryCache.setUserRole e u r).WF = true := by
  unfold Engine.WF at h ⊢
  rcases (Bool.and_eq_true _ _).mp h with ⟨hp, hg⟩
  rw [memoryCache.setUserRole_policies, memoryCache.setUserRole_gfacts]
  refine (Bool.and_eq_true _ _).mpr ⟨hp, ?_⟩
  simp only [List.all_append, List.all_cons, List.all_nil]
  refine (Bool.and_eq_true _ _).mpr
    ⟨?_, by simp [EStr.isUuidS, EStr.isRoleS]⟩
  refine List.all_eq_true.mpr ?_
  intro gf hgf
  exact List.all_eq_true.mp hg gf (List.mem_of_mem_filter hgf)

theorem memoryCache.loadRoles_WF {e : Engine} (h : e.WF = true)
    (userRoles : List (Uuid × Role)) :
    (memoryCache.loadRoles e userRoles).WF = true := by
  induction userRoles generalizing e with
  | nil => exact h
  | cons hd tl ih => exact ih (memoryCache.setUserRole_WF h hd.1 hd.2)

/-! ## Concrete instances used by the witnesses -/

/-- A concrete user ID. -/
def uA : Uuid := ⟨1⟩

/-- A concrete (non-nil) resource instance ID. -/
def rA : Uuid := ⟨2⟩

/-! ## Claims -/

/-- C1: Self-repair on the instance read path: when the in-memory
engine check misses and the store's `ValidateAccess` succeeds, the
coordinator returns success, performs exactly one store call, and adds
the instance fact `(UserID, ResourceID, Action)` to the engine; the
immediately repeated identical check then hits the engine and returns
success with the store call count unchanged (the whole state is
unchanged). -/
theorem C1_self_repair (s : CachedStore) (check : AccessCheck)
    (hmiss : memoryCache.check s.engine check.UserID check.Resource
      check.ResourceID check.Action = false)
    (hok : s.db.validateAccess check = none)
    (hrid : check.ResourceID ≠ Uuid.nil) :
    (s.validateAccess check).2 = none ∧
      (s.validateAccess check).1.calls = s.calls + 1 ∧
      (EStr.uuidS check.UserID, EStr.uuidS check.ResourceID,
        EStr.actS check.Action) ∈ (s.validateAccess check).1.engine.policies ∧
      (s.validateAccess check).1.validateAccess check =
        ((s.validateAccess check).1, none) := by
  have h1 : s.validateAccess check =
      ({ s with
          engine := memoryCache.add s.engine check.UserID check.Resource
            check.ResourceID check.Action,
          calls := s.calls + 1 }, none) := by
    unfold CachedStore.validateAccess
    rw [if_neg (by simp [hmiss]), hok]
  have hfact : (EStr.uuidS check.UserID, EStr.uuidS check.ResourceID,
      EStr.actS check.Action) ∈
      (memoryCache.add s.engine check.UserID check.Resource check.ResourceID
        check.Action).policies := by
    rw [← memoryCache.resolveObject_ne check.Resource check.ResourceID hrid]
    exact (memoryCache.mem_add _ _ _ _ _ _).mpr (Or.inr rfl)
  have hhit : memoryCache.check
      (memoryCache.add s.engine check.UserID check.Resource check.ResourceID
        check.Action) check.UserID check.Resource check.ResourceID
      check.Action = true := by
    apply memoryCache.check_of_mem_fact
    rw [memoryCache.resolveObject_ne check.Resource check.ResourceID hrid]
    exact hfact
  refine ⟨by rw [h1], by rw [h1], by rw [h1]; exact hfact, ?_⟩
  rw [h1]
  simp [CachedStore.validateAccess, hhit]

/-- Concrete coordinator state for the C1 witness: empty engine, one
persisted rule `(uA, rA, DASHBOARD, {GET})`, call counter zero. -/
def sC1 : CachedStore :=
  ⟨Engine.empty, ⟨[⟨uA, rA, Resource.dashboard, [Action.get]⟩], [], []⟩, 0⟩

/-- Concrete instance check for the C1 witness. -/
def ckC1 : AccessCheck := ⟨uA, rA, Resource.dashboard, Action.get⟩

/-- Witness for C1 at a concrete state: the hypotheses hold and the
theorem's conclusion follows. -/
theorem C1_self_repair_witness :
    (memoryCache.check sC1.engine ckC1.UserID ckC1.Resource ckC1.ResourceID
      ckC1.Action = false) ∧
    (sC1.db.validateAccess ckC1 = none) ∧
    (ckC1.ResourceID ≠ Uuid.nil) ∧
    ((sC1.validateAccess ckC1).2 = none ∧
      (sC1.validateAccess ckC1).1.calls = sC1.calls + 1 ∧
      (EStr.uuidS ckC1.UserID, EStr.uuidS ckC1.ResourceID,
        EStr.actS ckC1.Action) ∈ (sC1.validateAccess ckC1).1.engine.policies ∧
      (sC1.validateAccess ckC1).1.validateAccess ckC1 =
        ((sC1.validateAccess ckC1).1, none)) :=
  ⟨by decide, by decide, by decide,
    C1_self_repair sC1 ckC1 (by decide) (by decide) (by decide)⟩

/-- C2: Negative results are never cached and denials propagate
unchanged: on an engine miss, whatever error the store returns
(denial or infrastructure) is returned exactly as-is and the engine is
not touched; with the database-backed storer, a denied check leaves
the state otherwise unchanged so the identical repeated check calls
the store again (counter goes from `n` to `n+1` to `n+2`). -/
theorem C2_no_negative_caching :
    (∀ (e : Engine) (check : AccessCheck) (err : Err),
      memoryCache.check e check.UserID check.Resource check.ResourceID
        check.Action = false →
      aclcache.validateAccessStep e check (some err) = (e, some err)) ∧
    (∀ (s : CachedStore) (check : AccessCheck),
      memoryCache.check s.engine check.UserID check.Resource check.ResourceID
        check.Action = false →
      s.db.validateAccess check = some Err.accessDenied →
      s.validateAccess check =
        ({ s with calls := s.calls + 1 }, some Err.accessDenied) ∧
      (s.validateAccess check).1.validateAccess check =
        ({ s with calls := s.calls + 2 }, some Err.accessDenied)) := by
  constructor
  · intro e check err hmiss
    unfold aclcache.validateAccessStep
    rw [if_neg (by simp [hmiss])]
  · intro s check hmiss hden
    have h1 : s.validateAccess check =
        ({ s with calls := s.calls + 1 }, some Err.accessDenied) := by
      unfold CachedStore.validateAccess
      rw [if_neg (by simp [hmiss]), hden]
    refine ⟨h1, ?_⟩
    rw [h1]
    unfold CachedStore.validateAccess
    rw [if_neg (by simp [hmiss]), hden]

/-- Concrete coordinator state for the C2 witness: empty engine, a
store with no rules. -/
def sC2 : CachedStore := ⟨Engine.empty, ⟨[], [], []⟩, 0⟩

/-- Concrete instance check for the C2 witness. -/
def ckC2 : AccessCheck := ⟨uA, rA, Resource.dashboard, Action.update⟩

/-- Witness for C2 at a concrete state: hypotheses hold and both parts
of the theorem apply. -/
theorem C2_no_negative_caching_witness :
    (memoryCache.check sC2.engine ckC2.UserID ckC2.Resource ckC2.ResourceID
      ckC2.Action = false) ∧
    (sC2.db.validateAccess ckC2 = some Err.accessDenied) ∧
    (aclcache.validateAccessStep sC2.engine ckC2 (some (Err.infra 7)) =
      (sC2.engine, some (Err.infra 7))) ∧
    (sC2.validateAccess ckC2 =
        ({ sC2 with calls := sC2.calls + 1 }, some Err.accessDenied) ∧
      (sC2.validateAccess ckC2).1.validateAccess ckC2 =
        ({ sC2 with calls := sC2.calls + 2 }, some Err.accessDenied)) :=
  ⟨by decide, by decide,
    C2_no_negative_caching.1 sC2.engine ckC2 (Err.infra 7) (by decide),
    C2_no_negative_caching.2 sC2 ckC2 (by decide) (by decide)⟩

/-- C5: Write-through atomicity on failure: for each coordinator write
operation (`Create`, `Update`, `Delete`, `SyncUserRole`), a storer
error is returned as-is and the engine state is completely unchanged
(policy facts and grouping facts alike). -/
theorem C5_write_through_atomicity (e : Engine) (u : Uuid) (nw : NewACL)
    (p : ACLUpdate) (rid : Uuid) (r : Role) (err : Err) :
    aclcache.createStep e u nw (some err) = (e, some err) ∧
      aclcache.updateStep e u p (some err) = (e, some err) ∧
      aclcache.deleteStep e u rid (some err) = (e, some err) ∧
      aclcache.syncUserRoleStep e u r (some err) = (e, some err) :=
  ⟨rfl, rfl, rfl, rfl⟩

/-- C3: Engine matching semantics: for a well-formed engine state (as
produced by the repository's operations), the cache check succeeds iff
the subject holds the `ROLE:ADMIN` grouping fact or an exact matching
fact exists (the instance-scope fact counting only when a non-nil
resource ID is supplied); with a non-nil resource ID the check is the
OR of the instance-scope and type-scope enforces, instance first. -/
theorem C3_engine_matching (e : Engine) (hwf : e.WF = true) (u : Uuid)
    (res : Resource) (resID : Uuid) (act : Action) :
    (memoryCache.check e u res resID act = true ↔
      ((EStr.uuidS u, EStr.roleS Role.admin) ∈ e.gfacts ∨
        (resID ≠ Uuid.nil ∧
          (EStr.uuidS u, EStr.uuidS resID, EStr.actS act) ∈ e.policies) ∨
        (EStr.uuidS u, EStr.resS res, EStr.actS act) ∈ e.policies)) ∧
    (resID ≠ Uuid.nil →
      memoryCache.check e u res resID act =
        (e.enforce (EStr.uuidS u) (EStr.uuidS resID) (EStr.actS act) ||
          e.enforce (EStr.uuidS u) (EStr.resS res) (EStr.actS act))) := by
  refine ⟨?_, fun h => memoryCache.check_eq_or e u res resID act h⟩
  by_cases hn : resID = Uuid.nil
  · subst hn
    rw [memoryCache.check_nil, Engine.enforce_iff_of_WF hwf]
    constructor
    · rintro (h | h)
      · exact Or.inl h
      · exact Or.inr (Or.inr h)
    · rintro (h | ⟨hne, _⟩ | h)
      · exact Or.inl h
      · exact absurd rfl hne
      · exact Or.inr h
  · rw [memoryCache.check_eq_or e u res resID act hn]
    rw [Bool.or_eq_true, Engine.enforce_iff_of_WF hwf, Engine.enforce_iff_of_WF hwf]
    constructor
    · rintro ((h | h) | (h | h))
      · exact Or.inl h
      · exact Or.inr (Or.inl ⟨hn, h⟩)
      · exact Or.inl h
      · exact Or.inr (Or.inr h)
    · rintro (h | ⟨_, h⟩ | h)
      · exact Or.inl (Or.inl h)
      · exact Or.inl (Or.inr h)
      · exact Or.inr (Or.inr h)

/-- Concrete well-formed engine for the C3 witness: one instance fact
for `uA` on `rA` and one grouping fact. -/
def egC3 : Engine :=
  ⟨[(EStr.uuidS uA, EStr.uuidS rA, EStr.actS Action.get)],
    [(EStr.uuidS uA, EStr.roleS Role.user)]⟩

/-- Witness for C3: the well-formedness hypothesis holds at `egC3` and
the theorem applies. -/
theorem C3_engine_matching_witness :
    (Engine.WF egC3 = true) ∧
    ((memoryCache.check egC3 uA Resource.dashboard rA Action.get = true ↔
      ((EStr.uuidS uA, EStr.roleS Role.admin) ∈ egC3.gfacts ∨
        (rA ≠ Uuid.nil ∧
          (EStr.uuidS uA, EStr.uuidS rA, EStr.actS Action.get) ∈ egC3.policies) ∨
        (EStr.uuidS uA, EStr.resS Resource.dashboard, EStr.actS Action.get) ∈
          egC3.policies)) ∧
    (rA ≠ Uuid.nil →
      memoryCache.check egC3 uA Resource.dashboard rA Action.get =
        (egC3.enforce (EStr.uuidS uA) (EStr.uuidS rA) (EStr.actS Action.get) ||
          egC3.enforce (EStr.uuidS uA) (EStr.resS Resource.dashboard)
            (EStr.actS Action.get)))) :=
  ⟨by decide, C3_engine_matching egC3 (by decide) uA Resource.dashboard rA Action.get⟩

/-- C4: Role-grouping exclusivity: `setUserRole` leaves exactly one
grouping fact for the subject (the new one); permission facts never
touch the grouping store; in particular after `SetRole(U, Analyst)`
then `SetRole(U, User)` the only grouping fact for `U` is `ROLE:USER`
and the `ROLE:ANALYST` fact is gone. -/
theorem C4_role_exclusivity (e : Engine) (u : Uuid) (r : Role) :
    ((memoryCache.setUserRole e u r).gfacts.filter
        (fun gf => gf.1 == EStr.uuidS u) = [(EStr.uuidS u, EStr.roleS r)]) ∧
    (∀ x : EStr, (EStr.uuidS u, x) ∈ (memoryCache.setUserRole e u r).gfacts ↔
      x = EStr.roleS r) ∧
    ((memoryCache.setUserRole (memoryCache.setUserRole e u Role.analyst) u
        Role.user).gfacts.filter (fun gf => gf.1 == EStr.uuidS u) =
      [(EStr.uuidS u, EStr.roleS Role.user)]) ∧
    ((EStr.uuidS u, EStr.roleS Role.analyst) ∉
      (memoryCache.setUserRole (memoryCache.setUserRole e u Role.analyst) u
        Role.user).gfacts) := by
  have hmem : ∀ (e' : Engine) (r' : Role) (x : EStr),
      (EStr.uuidS u, x) ∈ (memoryCache.setUserRole e' u r').gfacts ↔
        x = EStr.roleS r' := by
    intro e' r' x
    rw [memoryCache.setUserRole_gfacts]
    simp [List.mem_filter]
  refine ⟨memoryCache.setUserRole_filter_self e u r, hmem e r, ?_, ?_⟩
  · exact memoryCache.setUserRole_filter_self _ u Role.user
  · intro hc
    have := (hmem _ Role.user _).mp hc
    exact EStr.noConfusion this (fun h => Role.noConfusion h)

/-- Witness for C4: the theorem applied at the empty engine; after
`SetRole(uA, Analyst)` then `SetRole(uA, User)` the only grouping fact
for `uA` is `ROLE:USER`. -/
theorem C4_role_exclusivity_witness :
    (memoryCache.setUserRole (memoryCache.setUserRole Engine.empty uA
        Role.analyst) uA Role.user).gfacts.filter
      (fun gf => gf.1 == EStr.uuidS uA) =
      [(EStr.uuidS uA, EStr.roleS Role.user)] :=
  (C4_role_exclusivity Engine.empty uA Role.user).2.2.1

/-- C6: Cold warm-up: a failing role snapshot or permission snapshot
aborts construction with that error; after a successful construction
over database state `db`, every persisted rule tuple is answered
success by `ValidateAccess` directly from the engine, with no store
call (the composed state, including the call counter, is returned
unchanged). -/
theorem C6_cold_warm_up :
    (∀ (err : Err) (permsRes : Except Err (List ACL)),
      aclcache.newStore (.error err) permsRes = .error err) ∧
    (∀ (userRoles : List (Uuid × Role)) (err : Err),
      aclcache.newStore (.ok userRoles) (.error err) = .error err) ∧
    (∀ (db : DB) (e : Engine),
      aclcache.newStore (.ok db.userRoles) (.ok db.acls) = .ok e →
      ∀ rule ∈ db.acls, ∀ act ∈ rule.Actions,
        CachedStore.validateAccess ⟨e, db, 0⟩
          ⟨rule.UserID, rule.ResourceID, rule.Resource, act⟩ =
          (⟨e, db, 0⟩, none)) := by
  refine ⟨fun err permsRes => rfl, fun userRoles err => rfl, ?_⟩
  intro db e h rule hrule act hact
  have he : (db.acls.foldl
      (fun acc rule =>
        rule.Actions.foldl
          (fun acc2 act =>
            memoryCache.add acc2 rule.UserID rule.Resource rule.ResourceID act)
          acc)
      (memoryCache.loadRoles Engine.empty db.userRoles)) = e := by
    have h' := h
    unfold aclcache.newStore at h'
    exact Except.ok.inj h'
  have hfact : (EStr.uuidS rule.UserID,
      memoryCache.resolveObject rule.Resource rule.ResourceID,
      EStr.actS act) ∈ e.policies := by
    rw [← he]
    exact (memoryCache.mem_warm _ _ _).mpr (Or.inr ⟨rule, hrule, act, hact, rfl⟩)
  have hhit : memoryCache.check e rule.UserID rule.Resource rule.ResourceID
      act = true :=
    memoryCache.check_of_mem_fact e _ _ _ _ hfact
  unfold CachedStore.validateAccess
  rw [if_pos]
  exact hhit

/-- Concrete database for the C6 witness. -/
def dbC6 : DB :=
  ⟨[⟨uA, rA, Resource.dashboard, [Action.get, Action.update]⟩],
    [(uA, Role.user)], []⟩

/-- The engine produced by warming up over `dbC6`. -/
def eC6 : Engine :=
  ⟨[(EStr.uuidS uA, EStr.uuidS rA, EStr.actS Action.get),
      (EStr.uuidS uA, EStr.uuidS rA, EStr.actS Action.update)],
    [(EStr.uuidS uA, EStr.roleS Role.user)]⟩

/-- Witness for C6: construction over `dbC6` yields `eC6` and the
warmed tuple is served with zero store calls. -/
theorem C6_cold_warm_up_witness :
    (aclcache.newStore (.ok dbC6.userRoles) (.ok dbC6.acls) = .ok eC6) ∧
    (⟨uA, rA, Resource.dashboard, [Action.get, Action.update]⟩ ∈ dbC6.acls) ∧
    (Action.update ∈ (⟨uA, rA, Resource.dashboard,
      [Action.get, Action.update]⟩ : ACL).Actions) ∧
    (CachedStore.validateAccess ⟨eC6, dbC6, 0⟩
        ⟨uA, rA, Resource.dashboard, Action.update⟩ = (⟨eC6, dbC6, 0⟩, none)) :=
  ⟨by rfl, by decide, by decide,
    C6_cold_warm_up.2.2 dbC6 eC6 (by rfl)
      ⟨uA, rA, Resource.dashboard, [Action.get, Action.update]⟩ (by decide)
      Action.update (by decide)⟩

/-- Engine before the C7 narrowing scenario: `(uA, rA)` holds
`{GET, UPDATE}`. -/
def egC7 : Engine :=
  ⟨[(EStr.uuidS uA, EStr.uuidS rA, EStr.actS Action.get),
      (EStr.uuidS uA, EStr.uuidS rA, EStr.actS Action.update)], []⟩

/-- Database after the C7 narrowing update: the persisted rule holds
only `{GET}`. -/
def dbC7 : DB := ⟨[⟨uA, rA, Resource.dashboard, [Action.get]⟩], [], []⟩

/-- The engine produced by the coordinator's narrowing update over
`egC7`. -/
def eNarrow : Engine :=
  (aclcache.updateStep egC7 uA ⟨rA, Resource.dashboard, [Action.get]⟩ none).1

/-- C7: Update narrows correctly: after a successful store update for
a non-nil `(UserID, ResourceID)` with action set `acts`, the engine
facts for that pair are exactly one per action of `acts`; in the
concrete narrowing scenario `{GET, UPDATE} → {GET}` the `(uA, rA,
UPDATE)` fact is gone and the subsequent `ValidateAccess` goes to the
store (one more call) and is denied. -/
theorem C7_update_narrows (e : Engine) (u : Uuid) (rid : Uuid) (res : Resource)
    (acts : List Action) (hrid : rid ≠ Uuid.nil) :
    (∀ a : Action,
      (EStr.uuidS u, EStr.uuidS rid, EStr.actS a) ∈
          (aclcache.updateStep e u ⟨rid, res, acts⟩ none).1.policies ↔
        a ∈ acts) ∧
    ((EStr.uuidS uA, EStr.uuidS rA, EStr.actS Action.update) ∉
      eNarrow.policies) ∧
    (CachedStore.validateAccess ⟨eNarrow, dbC7, 0⟩
        ⟨uA, rA, Resource.dashboard, Action.update⟩ =
      (⟨eNarrow, dbC7, 1⟩, some Err.accessDenied)) := by
  refine ⟨?_, by decide, by decide⟩
  intro a
  have hstep : (aclcache.updateStep e u ⟨rid, res, acts⟩ none).1 =
      acts.foldl (fun acc act => memoryCache.add acc u res rid act)
        (memoryCache.clearInstanceRules e u rid) := rfl
  rw [hstep, memoryCache.mem_foldl_add]
  constructor
  · rintro (hin | ⟨a', ha', heq⟩)
    · exfalso
      rw [memoryCache.mem_clearInstanceRules e u rid hrid] at hin
      exact hin.2 ⟨rfl, rfl⟩
    · rw [memoryCache.resolveObject_ne res rid hrid] at heq
      have ha : a = a' := by simpa using heq
      rw [ha]
      exact ha'
  · intro ha
    exact Or.inr ⟨a, ha, by rw [memoryCache.resolveObject_ne res rid hrid]⟩

/-- Witness for C7: apply the theorem at the concrete narrowing
scenario and specialize the per-action characterization to UPDATE. -/
theorem C7_update_narrows_witness :
    (rA ≠ Uuid.nil) ∧
    ((EStr.uuidS uA, EStr.uuidS rA, EStr.actS Action.update) ∈
        (aclcache.updateStep egC7 uA ⟨rA, Resource.dashboard, [Action.get]⟩
          none).1.policies ↔
      Action.update ∈ [Action.get]) :=
  ⟨by decide,
    (C7_update_narrows egC7 uA rA Resource.dashboard [Action.get]
      (by decide)).1 Action.update⟩

/-- C8: the facade's Double-Guard `Authorize` is the AND of the
type-scope and (when an ID is supplied) instance-scope checks, the
coordinator's cache check is the OR (instance first), and the two
disagree on a fact set holding an instance fact without the
corresponding type fact. -/
theorem C8_models_inequivalent :
    (∀ (e : Engine) (u : Uuid) (res : Resource) (act : Action) (rid : Uuid),
      auth.authorize e u res act (some rid) =
        (e.enforce (EStr.uuidS u) (EStr.resS res) (EStr.actS act) &&
          e.enforce (EStr.uuidS u) (EStr.uuidS rid) (EStr.actS act))) ∧
    (∀ (e : Engine) (u : Uuid) (res : Resource) (act : Action) (rid : Uuid),
      rid ≠ Uuid.nil →
      memoryCache.check e u res rid act =
        (e.enforce (EStr.uuidS u) (EStr.uuidS rid) (EStr.actS act) ||
          e.enforce (EStr.uuidS u) (EStr.resS res) (EStr.actS act))) ∧
    (auth.authorize egC7 uA Resource.dashboard Action.get (some rA) = false ∧
      memoryCache.check egC7 uA Resource.dashboard rA Action.get = true) :=
  ⟨fun e u res act rid => rfl,
    fun e u res act rid h => memoryCache.check_eq_or e u res rid act h,
    by decide, by decide⟩

/-- Witness for C8: the inner non-nil hypothesis discharged at the
concrete engine `egC7`. -/
theorem C8_models_inequivalent_witness :
    (rA ≠ Uuid.nil) ∧
    (memoryCache.check egC7 uA Resource.dashboard rA Action.get =
      (Engine.enforce egC7 (EStr.uuidS uA) (EStr.uuidS rA)
          (EStr.actS Action.get) ||
        Engine.enforce egC7 (EStr.uuidS uA) (EStr.resS Resource.dashboard)
          (EStr.actS Action.get))) :=
  ⟨by decide,
    C8_models_inequivalent.2.1 egC7 uA Resource.dashboard Action.get rA
      (by decide)⟩

/-- Engine for the C9 scenario: a type-scope fact added by self-repair
while `uA` held ADMIN, plus the ADMIN grouping fact. -/
def egC9 : Engine :=
  ⟨[(EStr.uuidS uA, EStr.resS Resource.dashboard, EStr.actS Action.get)],
    [(EStr.uuidS uA, EStr.roleS Role.admin)]⟩

/-- C9: `SyncUserRole` (on store success) touches only the subject's
grouping facts: the policy store is unchanged, other subjects'
grouping facts are unchanged, and in the concrete scenario the
type-scope fact added under ADMIN survives the demotion to USER and
still makes the engine check succeed. -/
theorem C9_sync_role_frame (e : Engine) (u : Uuid) (r : Role) :
    ((aclcache.syncUserRoleStep e u r none).1.policies = e.policies) ∧
    ((aclcache.syncUserRoleStep e u r none).2 = none) ∧
    (∀ s x : EStr, s ≠ EStr.uuidS u →
      ((s, x) ∈ (aclcache.syncUserRoleStep e u r none).1.gfacts ↔
        (s, x) ∈ e.gfacts)) ∧
    ((EStr.uuidS uA, EStr.resS Resource.dashboard, EStr.actS Action.get) ∈
        (aclcache.syncUserRoleStep egC9 uA Role.user none).1.policies ∧
      memoryCache.check (aclcache.syncUserRoleStep egC9 uA Role.user none).1
        uA Resource.dashboard Uuid.nil Action.get = true) := by
  have hstep : (aclcache.syncUserRoleStep e u r none).1 =
      memoryCache.setUserRole e u r := rfl
  refine ⟨?_, rfl, ?_, by decide, by decide⟩
  · rw [hstep, memoryCache.setUserRole_policies]
  · intro s x hs
    rw [hstep, memoryCache.setUserRole_gfacts]
    simp [List.mem_filter, hs]

/-- Witness for C9: the frame property applied to another subject's
grouping fact. -/
theorem C9_sync_role_frame_witness :
    (EStr.uuidS rA ≠ EStr.uuidS uA) ∧
    ((EStr.uuidS rA, EStr.roleS Role.analyst) ∈
        (aclcache.syncUserRoleStep egC9 uA Role.user none).1.gfacts ↔
      (EStr.uuidS rA, EStr.roleS Role.analyst) ∈ egC9.gfacts) :=
  ⟨by decide,
    (C9_sync_role_frame egC9 uA Role.user).2.2.1 (EStr.uuidS rA)
      (EStr.roleS Role.analyst) (by decide)⟩

/-- Engine for the C10 scenario: one instance fact. -/
def egC10 : Engine :=
  ⟨[(EStr.uuidS uA, EStr.uuidS rA, EStr.actS Action.get)], []⟩

/-- C10: Nil-UUID edge case at the coordinator's write interface:
clearing instance rules with the nil UUID is a no-op, a coordinator
`Delete` with nil resource ID leaves the engine unchanged, and a
coordinator `Update` with nil resource ID removes nothing while adding
one type-scope fact per action of the new set. -/
theorem C10_nil_uuid (e : Engine) (u : Uuid) (res : Resource)
    (acts : List Action) :
    (memoryCache.clearInstanceRules e u Uuid.nil = e) ∧
    (aclcache.deleteStep e u Uuid.nil none = (e, none)) ∧
    (∀ p ∈ e.policies,
      p ∈ (aclcache.updateStep e u ⟨Uuid.nil, res, acts⟩ none).1.policies) ∧
    (∀ a ∈ acts,
      (EStr.uuidS u, EStr.resS res, EStr.actS a) ∈
        (aclcache.updateStep e u ⟨Uuid.nil, res, acts⟩ none).1.policies) := by
  have hclear := memoryCache.clearInstanceRules_nil e u
  have hstep : (aclcache.updateStep e u ⟨Uuid.nil, res, acts⟩ none).1 =
      acts.foldl (fun acc act => memoryCache.add acc u res Uuid.nil act)
        (memoryCache.clearInstanceRules e u Uuid.nil) := rfl
  refine ⟨hclear, ?_, ?_, ?_⟩
  · show (memoryCache.clearInstanceRules e u Uuid.nil, (none : Option Err)) =
      (e, none)
    rw [hclear]
  · intro p hp
    rw [hstep, hclear]
    exact (memoryCache.mem_foldl_add _ _ _ _ _ _).mpr (Or.inl hp)
  · intro a ha
    rw [hstep]
    exact (memoryCache.mem_foldl_add _ _ _ _ _ _).mpr
      (Or.inr ⟨a, ha, by rw [memoryCache.resolveObject_nil]⟩)

/-- Witness for C10: both inner membership hypotheses discharged at a
concrete engine and action list. -/
theorem C10_nil_uuid_witness :
    ((EStr.uuidS uA, EStr.uuidS rA, EStr.actS Action.get) ∈ egC10.policies) ∧
    ((EStr.uuidS uA, EStr.uuidS rA, EStr.actS Action.get) ∈
      (aclcache.updateStep egC10 uA ⟨Uuid.nil, Resource.dashboard,
        [Action.get]⟩ none).1.policies) ∧
    (Action.get ∈ [Action.get]) ∧
    ((EStr.uuidS uA, EStr.resS Resource.dashboard, EStr.actS Action.get) ∈
      (aclcache.updateStep egC10 uA ⟨Uuid.nil, Resource.dashboard,
        [Action.get]⟩ none).1.policies) :=
  ⟨by decide,
    (C10_nil_uuid egC10 uA Resource.dashboard [Action.get]).2.2.1
      (EStr.uuidS uA, EStr.uuidS rA, EStr.actS Action.get) (by decide),
    by decide,
    (C10_nil_uuid egC10 uA Resource.dashboard [Action.get]).2.2.2
      Action.get (by decide)⟩

end SpiExata
